import Mathlib

/-
Shallow embedding of the veloframe/viewer photo-frame core, translated from the
Python sources:
  photo_file_set.py        (PhotoFileSet: sequence, portrait index, pairing)
  photo_transition_manager.py (TransitionManager: cross-fade state machine)
  photo_preparation.py     (PhotoPreparationManager: bounded pixmap cache)
  photo_processing.py      (get_scaled_size, create_blurred_background)
  photo_frame.py           (PhotoFrame.show_photo: consecutive-failure retry loop)
Stateful methods become explicit state-passing functions; filesystem and image
decoding are modelled as oracles carried in the state or an environment record.
-/

namespace VeloFrame

/-! ### PhotoFileSet (photo_file_set.py)

State of a `PhotoFileSet` instance.  `portrait_photos` and `portrait_cache`
are the background-scan set and per-path cache; `oracle` models the
filesystem-backed `photo_processing.is_portrait` check (which fails closed
to a boolean, so it is a total function here). -/

structure PhotoFileSet where
  photo_files : List String
  current_index : Nat
  portrait_photos : String → Bool
  portrait_cache : String → Option Bool
  portrait_scan_complete : Bool
  oracle : String → Bool

/-- Translation of `PhotoFileSet.is_portrait_photo` (photo_file_set.py lines
148-186).  Returns the boolean result together with the possibly mutated
state (the on-demand branch caches the oracle result and extends the
portrait set when the result is true). -/
def is_portrait_photo (s : PhotoFileSet) (p : String) : Bool × PhotoFileSet :=
  if s.portrait_photos p then
    (true, s)
  else if s.portrait_scan_complete ∧ (s.portrait_cache p).isSome then
    (false, s)
  else
    match s.portrait_cache p with
    | some b => (b, s)
    | none =>
        (s.oracle p,
          { s with
            portrait_cache := fun q => if q = p then some (s.oracle p) else s.portrait_cache q,
            portrait_photos :=
              if s.oracle p then (fun q => q = p || s.portrait_photos q)
              else s.portrait_photos })

/-- The value `is_portrait_photo` returns, as a pure function of the state
(no mutation).  Used to state properties of the scanning loop. -/
def isPortraitPure (s : PhotoFileSet) (p : String) : Bool :=
  if s.portrait_photos p then true
  else if s.portrait_scan_complete ∧ (s.portrait_cache p).isSome then false
  else
    match s.portrait_cache p with
    | some b => b
    | none => s.oracle p

/-- The `for i in range(1, min(lookahead + 1, len(self.photo_files)))` loop of
`PhotoFileSet.find_portrait_pair` (photo_file_set.py lines 215-227), with
`ci` the index of the current photo; the argument list is the (remaining)
sequence of loop offsets produced by the Python `range`. -/
def fppLoop (ci : Nat) (s : PhotoFileSet) :
    List Nat → Bool × Option String × PhotoFileSet
  | [] => (false, none, s)
  | i :: rest =>
      let nextPhoto := s.photo_files.getD ((ci + i) % s.photo_files.length) ""
      let r := is_portrait_photo s nextPhoto
      if r.1 then
        let s2 :=
          if 1 < i then
            { r.2 with current_index := (ci + i - 1) % r.2.photo_files.length }
          else r.2
        (true, some nextPhoto, s2)
      else
        fppLoop ci r.2 rest

/-- Translation of `PhotoFileSet.find_portrait_pair` (photo_file_set.py lines
188-229).  `list.index` raising `ValueError` for an absent element becomes
the `none` branch of `findIdx?`; `range(1, stop)` becomes
`List.range' 1 (stop - 1)`. -/
def find_portrait_pair (s : PhotoFileSet) (current : String) (lookahead : Nat) :
    Bool × Option String × PhotoFileSet :=
  let r := is_portrait_photo s current
  if r.1 then
    match r.2.photo_files.findIdx? (· = current) with
    | none => (false, none, r.2)
    | some ci =>
        fppLoop ci r.2 (List.range' 1 (min (lookahead + 1) r.2.photo_files.length - 1))
  else
    (false, none, r.2)

/-! ### TransitionManager (photo_transition_manager.py)

The Qt animation machinery is modelled by the one `QParallelAnimationGroup`
the manager holds: whether it is running and whether its `finished` signal is
connected to `_on_transition_finished`.  A `stop()`ed animation group never
emits `finished` (Qt emits `finished` only when an animation reaches its
end), so stopping is modelled by clearing `running`.  Callbacks are
identified by numeric ids; functions return the list of callback ids invoked
synchronously during the call. -/

structure AnimGroup where
  running : Bool
  connected : Bool

def freshGroup : AnimGroup := { running := false, connected := false }

structure TransitionManager where
  group : AnimGroup
  in_transition : Bool
  current_details : Option Bool
  next_details : Option Bool
  cb : Option Nat
  update_metadata_cb : Bool

/-- Translation of `TransitionManager.start_transition` (lines 24-108).
`cur` and `next` record the stored photo details (`some isPair`); `cb2` is
`on_finished_callback`.  With `duration <= 0` the callback is invoked
synchronously and no animation is built; otherwise a new group is created,
connected and started. -/
def start_transition (tm : TransitionManager) (cur next : Option Bool)
    (duration : Int) (cb2 : Option Nat) : TransitionManager × List Nat :=
  let g0 := if tm.in_transition then { tm.group with running := false } else tm.group
  let tm1 : TransitionManager :=
    { tm with
      group := g0, current_details := cur, next_details := next,
      cb := cb2, in_transition := true }
  if duration ≤ 0 then
    (tm1, cb2.toList)
  else
    ({ tm1 with group := { running := true, connected := true } }, [])

/-- Translation of `TransitionManager._on_transition_finished` (lines
153-163): disconnect, replace the group, invoke the stored callback.  The
stored callback field is not cleared by the source. -/
def on_transition_finished (tm : TransitionManager) : TransitionManager × List Nat :=
  ({ tm with group := freshGroup }, tm.cb.toList)

/-- A host event: the running animation group reaches its end and Qt emits
`finished`.  Fires `_on_transition_finished` only while the group is running
and connected; a stopped group never emits. -/
def group_finished_tick (tm : TransitionManager) : TransitionManager × List Nat :=
  if tm.group.running then
    if tm.group.connected then
      on_transition_finished { tm with group := { tm.group with running := false } }
    else
      ({ tm with group := { tm.group with running := false } }, [])
  else
    (tm, [])

/-- Translation of `TransitionManager.cancel_transition` (lines 173-197):
stop, disconnect, replace the group, clear `in_transition`; no callback is
invoked. -/
def cancel_transition (tm : TransitionManager) : TransitionManager × List Nat :=
  if tm.in_transition then
    ({ tm with group := freshGroup, in_transition := false }, [])
  else
    (tm, [])

/-- Host-driven events that can occur after a `start_transition` call. -/
inductive TmEvent
  | finishTick
  | cancelTick

def tm_step (tm : TransitionManager) : TmEvent → TransitionManager × List Nat
  | TmEvent.finishTick => group_finished_tick tm
  | TmEvent.cancelTick => cancel_transition tm

/-- Run a list of host events, accumulating all invoked callback ids. -/
def tm_run (tm : TransitionManager) : List TmEvent → TransitionManager × List Nat
  | [] => (tm, [])
  | e :: es =>
      let r := tm_step tm e
      let rest := tm_run r.1 es
      (rest.1, r.2 ++ rest.2)

/-- Translation of `TransitionManager._update_mid_transition` (lines
139-151): whether one progress/opacity update `v` invokes the metadata
callback.  The method mutates nothing. -/
def update_mid_transition (tm : TransitionManager) (v : ℚ) : Bool :=
  if (45 : ℚ)/100 ≤ v ∧ v ≤ (55 : ℚ)/100 ∧ tm.next_details.isSome then
    tm.update_metadata_cb
  else
    false

/-- Number of metadata-callback invocations over a sequence of
`valueChanged` progress updates during one transition. -/
def metadata_fire_count (tm : TransitionManager) (values : List ℚ) : Nat :=
  (values.filter (fun v => update_mid_transition tm v)).length

/-! ### PhotoPreparationManager (photo_preparation.py)

A decoded bitmap is modelled by its pixel dimensions plus an abstract
content id; decoding (`photo_processing.load_photo`) is an oracle in an
environment record.  The `_pixmap_cache` dict, which Python keeps in
insertion order, is an association list in insertion order. -/

structure Pixmap where
  width : Nat
  height : Nat
  tag : Nat
deriving DecidableEq

/-- Decode environment: `load_photo path target_size apply_blur` yields the
processed PIL image (as a `Pixmap`) and its EXIF record (abstract id). -/
structure Env where
  load_photo : String → Nat × Nat → Bool → Pixmap × Nat

/-- Integer semantics of Qt `QPixmap.scaled(tw, th, KeepAspectRatio)`
(`QSize::scaled`): fit `(w, h)` inside `(tw, th)` preserving aspect ratio
with integer division. -/
def qt_scaled_keep_aspect (w h tw th : Nat) : Nat × Nat :=
  let rw := th * w / h
  if rw ≤ tw then (rw, th) else (tw, tw * h / w)

/-- Python `str(bool)` used in the cache-key f-string. -/
def pyBoolStr (b : Bool) : String := if b then "True" else "False"

/-- The cache key f-string of photo_preparation.py line 37:
`f"{photo_path}_{w}x{h}_{apply_blur}"`. -/
def cache_key (path : String) (size : Nat × Nat) (blur : Bool) : String :=
  path ++ "_" ++ toString size.1 ++ "x" ++ toString size.2 ++ "_" ++ pyBoolStr blur

/-- Cache entries: key to (scaled pixmap, exif). -/
abbrev Cache := List (String × (Pixmap × Nat))

/-- Python dict assignment `d[k] = v`: replace in place if present, else
append (dicts preserve insertion order). -/
def dict_insert (c : Cache) (k : String) (v : Pixmap × Nat) : Cache :=
  match c with
  | [] => [(k, v)]
  | (kk, vv) :: rest =>
      if kk = k then (k, v) :: rest else (kk, vv) :: dict_insert rest k v

/-- Python `k in d` / `d[k]` lookup. -/
def dict_lookup (c : Cache) (q : String) : Option (Pixmap × Nat) :=
  match c with
  | [] => none
  | (kk, vv) :: rest => if kk = q then some vv else dict_lookup rest q

/-- Translation of `PhotoPreparationManager._update_cache` (lines 214-232):
insert, then drop the oldest entries (`list(keys)[:-10]`) while more than
the capacity of 10 remain. -/
def update_cache (c : Cache) (k : String) (v : Pixmap × Nat) : Cache :=
  let c2 := dict_insert c k v
  if 10 < c2.length then c2.drop (c2.length - 10) else c2

/-- Result record of `prepare_single_photo` (the photo-details dict,
restricted to the fields the core computes). -/
structure SingleDetails where
  pixmap : Pixmap
  exif : Nat
  path : String
  screen_size : Nat × Nat
  apply_blur : Bool
  show_metadata : Bool
  image_x : ℚ
  image_y : ℚ

/-- Translation of `PhotoPreparationManager.prepare_single_photo` (lines
24-91).  Returns the details, the updated cache and the number of decode
(`load_photo`) calls performed (1 on a miss, 0 on a hit). -/
def prepare_single_photo (env : Env) (c : Cache) (path : String)
    (ss : Nat × Nat) (blur meta : Bool) : SingleDetails × Cache × Nat :=
  let key := cache_key path ss blur
  let step :=
    match dict_lookup c key with
    | some pe => (pe.1, pe.2, c, 0)
    | none =>
        let le := env.load_photo path ss blur
        let dims := qt_scaled_keep_aspect le.1.width le.1.height ss.1 ss.2
        let pix : Pixmap := { width := dims.1, height := dims.2, tag := le.1.tag }
        (pix, le.2, update_cache c key (pix, le.2), 1)
  let pix := step.1
  let details : SingleDetails :=
    { pixmap := pix, exif := step.2.1, path := path, screen_size := ss,
      apply_blur := blur, show_metadata := meta,
      image_x := ((ss.1 : ℚ) - pix.width) / 2,
      image_y := ((ss.2 : ℚ) - pix.height) / 2 }
  (details, step.2.2.1, step.2.2.2)

/-- Result record of `prepare_photo_pair`. -/
structure PairDetails where
  pixmap1 : Pixmap
  pixmap2 : Pixmap
  exif1 : Nat
  exif2 : Nat
  path1 : String
  path2 : String
  screen_size : Nat × Nat
  apply_blur : Bool
  show_metadata : Bool
  image1_x : ℚ
  image1_y : ℚ
  image2_x : ℚ
  image2_y : ℚ

/-- The `half_screen_width = (screen_size[0] / 2) - 5` float of
prepare_photo_pair (line 107). -/
def half_screen_width (w : Nat) : ℚ := (w : ℚ) / 2 - 5

/-- Translation of `PhotoPreparationManager.prepare_photo_pair` (lines
93-212).  Each photo is loaded against `half_screen_size =
(int(half_screen_width), screen_h)` and scaled with bounds
`(half_screen_width, screen_h)`; the float width bound is truncated to an
integer as the Qt call requires.  Returns the details, the final cache and
the total number of decode calls. -/
def prepare_photo_pair (env : Env) (c : Cache) (p1 p2 : String)
    (ss : Nat × Nat) (blur meta : Bool) : PairDetails × Cache × Nat :=
  let halfW : Nat := (half_screen_width ss.1).floor.toNat
  let halfSize : Nat × Nat := (halfW, ss.2)
  let key1 := cache_key p1 halfSize blur
  let key2 := cache_key p2 halfSize blur
  let step1 :=
    match dict_lookup c key1 with
    | some pe => (pe.1, pe.2, c, 0)
    | none =>
        let le := env.load_photo p1 halfSize blur
        let dims := qt_scaled_keep_aspect le.1.width le.1.height halfW ss.2
        let pix : Pixmap := { width := dims.1, height := dims.2, tag := le.1.tag }
        (pix, le.2, update_cache c key1 (pix, le.2), 1)
  let c1 := step1.2.2.1
  let step2 :=
    match dict_lookup c1 key2 with
    | some pe => (pe.1, pe.2, c1, 0)
    | none =>
        let le := env.load_photo p2 halfSize blur
        let dims := qt_scaled_keep_aspect le.1.width le.1.height halfW ss.2
        let pix : Pixmap := { width := dims.1, height := dims.2, tag := le.1.tag }
        (pix, le.2, update_cache c1 key2 (pix, le.2), 1)
  let pix1 := step1.1
  let pix2 := step2.1
  let totalWidth : ℚ := (pix1.width : ℚ) + 10 + pix2.width
  let startX : ℚ := ((ss.1 : ℚ) - totalWidth) / 2
  let details : PairDetails :=
    { pixmap1 := pix1, pixmap2 := pix2, exif1 := step1.2.1, exif2 := step2.2.1,
      path1 := p1, path2 := p2, screen_size := ss,
      apply_blur := blur, show_metadata := meta,
      image1_x := startX,
      image1_y := ((ss.2 : ℚ) - pix1.height) / 2,
      image2_x := startX + pix1.width + 10,
      image2_y := ((ss.2 : ℚ) - pix2.height) / 2 }
  (details, step2.2.2.1, step1.2.2.2 + step2.2.2.2)

/-! ### photo_processing.py: get_scaled_size and create_blurred_background

PIL images are modelled as a term tracking provenance and dimensions, so
that "returns the image unchanged" is a plain equality. -/

inductive PImage
  | base (w h : Nat) (tag : Nat)
  | resized (src : PImage) (w h : Nat)
  | blurred (src : PImage) (radius : Nat)
  | cropped (src : PImage) (left top right bottom : Nat)
  | pasted (bg fg : PImage) (x y : Nat)
deriving DecidableEq

def PImage.width : PImage → Nat
  | base w _ _ => w
  | resized _ w _ => w
  | blurred src _ => src.width
  | cropped _ l _ r _ => r - l
  | pasted bg _ _ _ => bg.width

def PImage.height : PImage → Nat
  | base _ h _ => h
  | resized _ _ h => h
  | blurred src _ => src.height
  | cropped _ _ t _ b => b - t
  | pasted bg _ _ _ => bg.height

/-- Translation of `photo_processing.get_scaled_size` (lines 102-125):
rational scale ratios, `int()` truncation of the non-negative products. -/
def get_scaled_size (iw ih tw th : Nat) : Nat × Nat :=
  let widthRatio : ℚ := (tw : ℚ) / iw
  let heightRatio : ℚ := (th : ℚ) / ih
  let f := min widthRatio heightRatio
  (((iw : ℚ) * f).floor.toNat, ((ih : ℚ) * f).floor.toNat)

/-- Translation of `photo_processing.create_blurred_background` (lines
46-99). -/
def create_blurred_background (image : PImage) (sw sh : Nat) : PImage :=
  let iw := image.width
  let ih := image.height
  let scaled := get_scaled_size iw ih sw sh
  if scaled.1 < sw ∨ scaled.2 < sh then
    let f : ℚ := max ((sw : ℚ) / iw) ((sh : ℚ) / ih)
    let bw := ((iw : ℚ) * f).floor.toNat
    let bh := ((ih : ℚ) * f).floor.toNat
    let background := PImage.resized image bw bh
    let background := PImage.blurred background 75
    let left := (bw - sw) / 2
    let top := (bh - sh) / 2
    let background := PImage.cropped background left top (left + sw) (top + sh)
    let foreground := PImage.resized image scaled.1 scaled.2
    let pasteX := (sw - scaled.1) / 2
    let pasteY := (sh - scaled.2) / 2
    PImage.pasted background foreground pasteX pasteY
  else
    image

/-! ### PhotoFrame.show_photo retry loop (photo_frame.py lines 126-148)

The slice of `show_photo` that probes the current photo for existence,
advances past missing files and gives up via `_handle_empty_directory` once
`_error_count` exceeds 5.  `exPred` models `os.path.exists`.  The result
carries the outcome and the list of photo paths probed, in order.

The source counts `_error_count` upward and stops when `_error_count > 5`;
here the equivalent remaining retry budget `budget = 5 - _error_count` is
counted downward (so a call with `_error_count = 0` is a call with
`budget = 5`): after a failure the source recurses exactly when
`_error_count + 1 <= 5`, i.e. when `budget > 0`. -/

inductive ShowOutcome
  | displayed (path : String)
  | emptyState
deriving DecidableEq

def show_photo (exPred : String → Bool) (files : List String) :
    Nat → Nat → ShowOutcome × List String := fun idx budget =>
  if files.isEmpty then
    (ShowOutcome.emptyState, [])
  else
    let cur := files.getD idx ""
    if exPred cur then
      (ShowOutcome.displayed cur, [cur])
    else
      match budget with
      | 0 => (ShowOutcome.emptyState, [cur])
      | b + 1 =>
          let r := show_photo exPred files ((idx + 1) % files.length) b
          (r.1, cur :: r.2)

/-! ### Concrete instances used by counterexamples and witnesses -/

/-- Five-photo sequence sitting on "b"; "b" and "e" are the portrait files
according to the orientation oracle; the background scan has not finished
and nothing is cached. -/
def exSeq : PhotoFileSet :=
  { photo_files := ["a", "b", "c", "d", "e"], current_index := 1,
    portrait_photos := fun _ => false, portrait_cache := fun _ => none,
    portrait_scan_complete := false,
    oracle := fun p => p = "b" || p = "e" }

/-- A three-photo all-landscape sequence used by the C10 witness. -/
def c10Seq : PhotoFileSet :=
  { photo_files := ["x", "y", "z"], current_index := 0,
    portrait_photos := fun _ => false, portrait_cache := fun _ => none,
    portrait_scan_complete := false,
    oracle := fun _ => false }

/-- An idle transition manager (fresh instance). -/
def tmIdle : TransitionManager :=
  { group := freshGroup, in_transition := false, current_details := none,
    next_details := none, cb := none, update_metadata_cb := false }

/-- A manager in the middle of a running transition whose completion
callback is id 1, with the metadata callback installed. -/
def tmMid : TransitionManager :=
  { group := { running := true, connected := true }, in_transition := true,
    current_details := some false, next_details := some false, cb := some 1,
    update_metadata_cb := true }

/-- Decode environment whose every photo decodes (after optional blur
compositing against the requested target) to a 45x50 bitmap. -/
def envPair : Env :=
  { load_photo := fun _ _ _ => ({ width := 45, height := 50, tag := 7 }, 0) }

/-- Decode environment used by cache witnesses: a photo decodes to a
bitmap whose tag records the path length. -/
def envCache : Env :=
  { load_photo := fun p _ _ => ({ width := 40, height := 30, tag := p.length }, 3) }

/-- Filesystem predicate for the C5 scenario: only "f" exists. -/
def existsOnlyF : String → Bool := fun p => p = "f"

/-- Filesystem predicate where no file exists. -/
def existsNone : String → Bool := fun _ => false

/-- A constant cache value used by the C6 witness. -/
def constVal : String → Pixmap × Nat := fun _ => ({ width := 1, height := 1, tag := 0 }, 0)

/-! ## Supporting lemmas: PhotoFileSet -/

theorem ipp_fst (s : PhotoFileSet) (p : String) :
    (is_portrait_photo s p).1 = isPortraitPure s p := by
  by_cases h1 : s.portrait_photos p
  · simp [is_portrait_photo, isPortraitPure, h1]
  · by_cases h2 : s.portrait_scan_complete ∧ (s.portrait_cache p).isSome
    · simp [is_portrait_photo, isPortraitPure, h1, h2]
    · cases hc : s.portrait_cache p with
      | some b =>
          simp only [hc, Option.isSome_some, and_true] at h2
          simp [is_portrait_photo, isPortraitPure, h1, h2, hc]
      | none => simp [is_portrait_photo, isPortraitPure, h1, h2, hc]

theorem ipp_photo_files (s : PhotoFileSet) (p : String) :
    (is_portrait_photo s p).2.photo_files = s.photo_files := by
  by_cases h1 : s.portrait_photos p
  · simp [is_portrait_photo, h1]
  · by_cases h2 : s.portrait_scan_complete ∧ (s.portrait_cache p).isSome
    · simp [is_portrait_photo, h1, h2]
    · cases hc : s.portrait_cache p with
      | some b =>
          simp only [hc, Option.isSome_some, and_true] at h2
          simp [is_portrait_photo, h1, h2, hc]
      | none => simp [is_portrait_photo, h1, h2, hc]

theorem ipp_current_index (s : PhotoFileSet) (p : String) :
    (is_portrait_photo s p).2.current_index = s.current_index := by
  by_cases h1 : s.portrait_photos p
  · simp [is_portrait_photo, h1]
  · by_cases h2 : s.portrait_scan_complete ∧ (s.portrait_cache p).isSome
    · simp [is_portrait_photo, h1, h2]
    · cases hc : s.portrait_cache p with
      | some b =>
          simp only [hc, Option.isSome_some, and_true] at h2
          simp [is_portrait_photo, h1, h2, hc]
      | none => simp [is_portrait_photo, h1, h2, hc]

theorem ipp_pure (s : PhotoFileSet) (p q : String) :
    isPortraitPure (is_portrait_photo s p).2 q = isPortraitPure s q := by
  by_cases h1 : s.portrait_photos p
  · simp [is_portrait_photo, h1]
  · by_cases h2 : s.portrait_scan_complete ∧ (s.portrait_cache p).isSome
    · simp [is_portrait_photo, h1, h2]
    · cases hc : s.portrait_cache p with
      | some b =>
          simp only [hc, Option.isSome_some, and_true] at h2
          simp [is_portrait_photo, h1, h2, hc]
      | none =>
          by_cases hq : q = p
          · subst hq
            by_cases hr : s.oracle q
            · simp [is_portrait_photo, isPortraitPure, h1, h2, hc, hr]
            · by_cases hsc : s.portrait_scan_complete
              · simp [is_portrait_photo, isPortraitPure, h1, h2, hc, hr, hsc]
              · simp [is_portrait_photo, isPortraitPure, h1, h2, hc, hr, hsc]
          · by_cases hr : s.oracle p
            · simp [is_portrait_photo, isPortraitPure, h1, h2, hc, hr, hq]
            · simp [is_portrait_photo, isPortraitPure, h1, h2, hc, hr, hq]

theorem fppLoop_finds :
    ∀ (n a : Nat) (s : PhotoFileSet) (ci k : Nat),
      a ≤ k → k < a + n →
      (∀ j, a ≤ j → j < k →
        isPortraitPure s (s.photo_files.getD ((ci + j) % s.photo_files.length) "") = false) →
      isPortraitPure s (s.photo_files.getD ((ci + k) % s.photo_files.length) "") = true →
      (fppLoop ci s (List.range' a n)).1 = true ∧
      (fppLoop ci s (List.range' a n)).2.1 =
        some (s.photo_files.getD ((ci + k) % s.photo_files.length) "") ∧
      (fppLoop ci s (List.range' a n)).2.2.current_index =
        (if 1 < k then (ci + k - 1) % s.photo_files.length else s.current_index) := by
  intro n
  induction n with
  | zero =>
      intro a s ci k hak hkn _ _
      omega
  | succ n ih =>
      intro a s ci k hak hkn hfirst hk
      rw [List.range'_succ]
      by_cases hek : a = k
      · subst hek
        simp only [fppLoop, ipp_fst, hk, if_true]
        refine ⟨trivial, trivial, ?_⟩
        by_cases h1a : 1 < a
        · simp [h1a, ipp_photo_files]
        · simp [h1a, ipp_current_index]
      · have hlt : a < k := by omega
        have hfa := hfirst a (Nat.le_refl a) hlt
        simp only [fppLoop, ipp_fst, hfa, if_false, Bool.false_eq_true]
        obtain ⟨g1, g2, g3⟩ :=
          ih (a + 1)
            (is_portrait_photo s (s.photo_files.getD ((ci + a) % s.photo_files.length) "")).2
            ci k (by omega) (by omega)
            (fun j hj1 hj2 => by
              rw [ipp_pure, ipp_photo_files]
              exact hfirst j (by omega) hj2)
            (by rw [ipp_pure, ipp_photo_files]; exact hk)
        refine ⟨g1, ?_, ?_⟩
        · rw [g2, ipp_photo_files]
        · rw [g3, ipp_photo_files, ipp_current_index]

theorem fppLoop_frame :
    ∀ (l : List Nat) (s : PhotoFileSet) (ci : Nat),
      (fppLoop ci s l).2.2.photo_files = s.photo_files ∧
      ((fppLoop ci s l).1 = false →
        (fppLoop ci s l).2.1 = none ∧
        (fppLoop ci s l).2.2.current_index = s.current_index) ∧
      ((fppLoop ci s l).2.2.current_index ≠ s.current_index →
        (fppLoop ci s l).1 = true ∧
        ∃ k ∈ l, 1 < k ∧
          (fppLoop ci s l).2.2.current_index = (ci + k - 1) % s.photo_files.length ∧
          (fppLoop ci s l).2.1 =
            some (s.photo_files.getD ((ci + k) % s.photo_files.length) "")) := by
  intro l
  induction l with
  | nil =>
      intro s ci
      simp [fppLoop]
  | cons i rest ih =>
      intro s ci
      by_cases hp :
          isPortraitPure s (s.photo_files.getD ((ci + i) % s.photo_files.length) "") = true
      · simp only [fppLoop, ipp_fst, hp, if_true]
        by_cases h1i : 1 < i
        · refine ⟨by simp [h1i, ipp_photo_files], by simp, ?_⟩
          intro _
          refine ⟨by simp, i, List.mem_cons_self i rest, h1i, ?_, by simp⟩
          simp [h1i, ipp_photo_files]
        · refine ⟨by simp [h1i, ipp_photo_files], by simp, ?_⟩
          intro hne
          exact absurd (by simp [h1i, ipp_current_index]) hne
      · have hp2 :
            isPortraitPure s (s.photo_files.getD ((ci + i) % s.photo_files.length) "") = false :=
          by simpa using hp
        simp only [fppLoop, ipp_fst, hp2, if_false, Bool.false_eq_true]
        obtain ⟨g1, g2, g3⟩ :=
          ih (is_portrait_photo s (s.photo_files.getD ((ci + i) % s.photo_files.length) "")).2 ci
        refine ⟨by rw [g1, ipp_photo_files], ?_, ?_⟩
        · intro hf
          obtain ⟨ga, gb⟩ := g2 hf
          exact ⟨ga, by rw [gb, ipp_current_index]⟩
        · intro hne
          have hne2 :
              (fppLoop ci
                    (is_portrait_photo s
                        (s.photo_files.getD ((ci + i) % s.photo_files.length) "")).2
                    rest).2.2.current_index ≠
                (is_portrait_photo s
                    (s.photo_files.getD ((ci + i) % s.photo_files.length) "")).2.current_index := by
            rw [ipp_current_index]
            exact hne
          obtain ⟨ga, k, hk1, hk2, hk3, hk4⟩ := g3 hne2
          refine ⟨ga, k, List.mem_cons_of_mem i hk1, hk2, ?_, ?_⟩
          · rw [hk3, ipp_photo_files]
          · rw [hk4, ipp_photo_files]

/-! ## Claim theorems: sequence and portrait pairing -/

/-- C1: if the current photo is portrait, sits at the sequence's current
index, and the first portrait partner within the lookahead window is at
forward offset i with i greater than 1, then find_portrait_pair returns
(true, that partner) and repositions the current index to
(original index + i - 1) modulo the sequence length. -/
theorem C1_pair_advance
    (s : PhotoFileSet) (current : String) (lookahead i : Nat)
    (hidx : s.photo_files.findIdx? (· = current) = some s.current_index)
    (hcur : isPortraitPure s current = true)
    (h1 : 1 < i)
    (hstop : i < min (lookahead + 1) s.photo_files.length)
    (hfirst : ∀ j, j < i → 1 ≤ j →
      isPortraitPure s
        (s.photo_files.getD ((s.current_index + j) % s.photo_files.length) "") = false)
    (hi : isPortraitPure s
        (s.photo_files.getD ((s.current_index + i) % s.photo_files.length) "") = true) :
    (find_portrait_pair s current lookahead).1 = true ∧
    (find_portrait_pair s current lookahead).2.1 =
      some (s.photo_files.getD ((s.current_index + i) % s.photo_files.length) "") ∧
    (find_portrait_pair s current lookahead).2.2.current_index =
      (s.current_index + i - 1) % s.photo_files.length := by
  unfold find_portrait_pair
  simp only [ipp_fst, hcur, if_true, ipp_photo_files, hidx]
  obtain ⟨g1, g2, g3⟩ :=
    fppLoop_finds (min (lookahead + 1) s.photo_files.length - 1) 1
      (is_portrait_photo s current).2 s.current_index i
      (by omega) (by omega)
      (fun j hj1 hj2 => by
        rw [ipp_pure, ipp_photo_files]
        exact hfirst j hj2 hj1)
      (by rw [ipp_pure, ipp_photo_files]; exact hi)
  refine ⟨g1, ?_, ?_⟩
  · rw [g2, ipp_photo_files]
  · rw [g3, ipp_photo_files, ipp_current_index, if_pos h1]

/-- Witness for C1: in the five-photo sequence sitting on the portrait
photo "b", with the next portrait photo "e" three positions ahead, the pair
(true, "e") is returned and the current index moves two positions ahead
(from 1 to 3). -/
theorem C1_pair_advance_witness :
    (find_portrait_pair exSeq "b" 10).1 = true ∧
    (find_portrait_pair exSeq "b" 10).2.1 = some "e" ∧
    (find_portrait_pair exSeq "b" 10).2.2.current_index = 3 := by
  have h := C1_pair_advance exSeq "b" 10 3 (by decide) (by decide) (by decide)
    (by decide) (by decide) (by decide)
  refine ⟨h.1, ?_, ?_⟩
  · rw [h.2.1]; rfl
  · rw [h.2.2]; rfl

/-- C10: whenever find_portrait_pair returns (false, none) the sequence's
current index is unchanged, and any call that does change the index
returned a partner found at an offset strictly greater than 1 (within the
lookahead window and the list length). -/
theorem C10_index_frame (s : PhotoFileSet) (current : String) (lookahead : Nat) :
    ((find_portrait_pair s current lookahead).1 = false →
      (find_portrait_pair s current lookahead).2.1 = none ∧
      (find_portrait_pair s current lookahead).2.2.current_index = s.current_index) ∧
    ((find_portrait_pair s current lookahead).2.2.current_index ≠ s.current_index →
      (find_portrait_pair s current lookahead).1 = true ∧
      ∃ k, 1 < k ∧ k ≤ lookahead ∧ k < s.photo_files.length ∧
        ∃ ci, s.photo_files.findIdx? (· = current) = some ci ∧
          (find_portrait_pair s current lookahead).2.2.current_index =
            (ci + k - 1) % s.photo_files.length ∧
          (find_portrait_pair s current lookahead).2.1 =
            some (s.photo_files.getD ((ci + k) % s.photo_files.length) "")) := by
  unfold find_portrait_pair
  by_cases hcur : isPortraitPure s current = true
  · simp only [ipp_fst, hcur, if_true]
    cases hidx : (is_portrait_photo s current).2.photo_files.findIdx? (· = current) with
    | none =>
        simp only [hidx]
        exact ⟨fun _ => ⟨by trivial, ipp_current_index s current⟩,
          fun hne => absurd (ipp_current_index s current) hne⟩
    | some ci =>
        simp only [hidx]
        obtain ⟨g1, g2, g3⟩ :=
          fppLoop_frame
            (List.range' 1 (min (lookahead + 1)
              (is_portrait_photo s current).2.photo_files.length - 1))
            (is_portrait_photo s current).2 ci
        constructor
        · intro hf
          obtain ⟨ga, gb⟩ := g2 hf
          exact ⟨ga, by rw [gb, ipp_current_index]⟩
        · intro hne
          have hne2 :
              (fppLoop ci (is_portrait_photo s current).2
                  (List.range' 1 (min (lookahead + 1)
                    (is_portrait_photo s current).2.photo_files.length - 1))).2.2.current_index ≠
                (is_portrait_photo s current).2.current_index := by
            rw [ipp_current_index]; exact hne
          obtain ⟨ga, k, hkmem, hk1, hk2, hk3⟩ := g3 hne2
          have hkb := List.mem_range'_1.mp hkmem
          rw [ipp_photo_files] at hkb
          have hidx3 : s.photo_files.findIdx? (· = current) = some ci := by
            rw [ipp_photo_files] at hidx; exact hidx
          refine ⟨ga, k, hk1, by omega, by omega, ci, hidx3, ?_, ?_⟩
          · rw [hk2, ipp_photo_files]
          · rw [hk3, ipp_photo_files]
  · have hcur2 : isPortraitPure s current = false := by simpa using hcur
    simp only [ipp_fst, hcur2, if_false, Bool.false_eq_true]
    exact ⟨fun _ => ⟨by trivial, ipp_current_index s current⟩,
      fun hne => absurd (ipp_current_index s current) hne⟩

/-- Witness for C10: on an all-landscape three-photo sequence the query
returns (false, none) and leaves the current index at 0. -/
theorem C10_index_frame_witness :
    (find_portrait_pair c10Seq "x" 10).2.1 = none ∧
    (find_portrait_pair c10Seq "x" 10).2.2.current_index = 0 := by
  have h := (C10_index_frame c10Seq "x" 10).1 (by decide)
  exact ⟨h.1, h.2⟩

/-! ## Supporting lemmas: TransitionManager -/

theorem tm_step_cb (tm : TransitionManager) (e : TmEvent) :
    (tm_step tm e).1.cb = tm.cb := by
  cases e with
  | finishTick =>
      unfold tm_step group_finished_tick on_transition_finished
      split_ifs <;> rfl
  | cancelTick =>
      unfold tm_step cancel_transition
      split_ifs <;> rfl

theorem tm_step_out (tm : TransitionManager) (e : TmEvent) :
    (tm_step tm e).2 = [] ∨ (tm_step tm e).2 = tm.cb.toList := by
  cases e with
  | finishTick =>
      unfold tm_step group_finished_tick on_transition_finished
      split_ifs <;> simp
  | cancelTick =>
      unfold tm_step cancel_transition
      split_ifs <;> simp

theorem tm_step_stopped (tm : TransitionManager) (e : TmEvent)
    (h : tm.group.running = false) :
    (tm_step tm e).2 = [] ∧ (tm_step tm e).1.group.running = false := by
  cases e with
  | finishTick =>
      unfold tm_step group_finished_tick on_transition_finished
      simp [h]
  | cancelTick =>
      unfold tm_step cancel_transition
      split_ifs <;> simp [freshGroup, h]

theorem tm_run_mem (evts : List TmEvent) :
    ∀ (tm : TransitionManager) (c : Nat), tm.cb = some c →
      ∀ x ∈ (tm_run tm evts).2, x = c := by
  induction evts with
  | nil =>
      intro tm c _ x hx
      simp [tm_run] at hx
  | cons e es ih =>
      intro tm c hc x hx
      simp only [tm_run, List.mem_append] at hx
      rcases hx with hx | hx
      · rcases tm_step_out tm e with h | h <;> rw [h] at hx
        · cases hx
        · rw [hc] at hx
          simpa using hx
      · exact ih (tm_step tm e).1 c (by rw [tm_step_cb]; exact hc) x hx

theorem tm_run_stopped (evts : List TmEvent) :
    ∀ tm : TransitionManager, tm.group.running = false →
      (tm_run tm evts).2 = [] := by
  induction evts with
  | nil =>
      intro tm _
      rfl
  | cons e es ih =>
      intro tm h
      obtain ⟨h1, h2⟩ := tm_step_stopped tm e h
      simp only [tm_run, h1, List.nil_append]
      exact ih (tm_step tm e).1 h2

theorem tm_run_len (evts : List TmEvent) :
    ∀ tm : TransitionManager, (tm_run tm evts).2.length ≤ 1 := by
  induction evts with
  | nil =>
      intro tm
      simp [tm_run]
  | cons e es ih =>
      intro tm
      simp only [tm_run, List.length_append]
      cases e with
      | finishTick =>
          by_cases hr : tm.group.running
          · by_cases hcn : tm.group.connected
            · have hrest :
                  (tm_run (tm_step tm TmEvent.finishTick).1 es).2 = [] := by
                apply tm_run_stopped
                simp [tm_step, group_finished_tick, on_transition_finished, hr, hcn, freshGroup]
              have hout : (tm_step tm TmEvent.finishTick).2 = tm.cb.toList := by
                simp [tm_step, group_finished_tick, on_transition_finished, hr, hcn]
              rw [hrest, hout]
              cases tm.cb <;> simp
            · have hout : (tm_step tm TmEvent.finishTick).2 = [] := by
                simp [tm_step, group_finished_tick, hr, hcn]
              rw [hout]
              simpa using ih (tm_step tm TmEvent.finishTick).1
          · have hout : (tm_step tm TmEvent.finishTick).2 = [] := by
              simp [tm_step, group_finished_tick, hr]
            rw [hout]
            simpa using ih (tm_step tm TmEvent.finishTick).1
      | cancelTick =>
          have hout : (tm_step tm TmEvent.cancelTick).2 = [] := by
            unfold tm_step cancel_transition
            split_ifs <;> rfl
          rw [hout]
          simpa using ih (tm_step tm TmEvent.cancelTick).1

/-! ## Claim theorems: transition engine -/

/-- C2: from any state where a transition is running with completion
callback c1, starting a second transition with callback c2 stops the first
session: c1 is never invoked, neither synchronously by the second start nor
by any later sequence of animation-finished or cancel events, and c2 is
invoked at most once over that whole future. -/
theorem C2_second_start_sole_callback
    (tm : TransitionManager) (cur next : Option Bool) (d2 : Int) (c1 c2 : Nat)
    (evts : List TmEvent)
    (hrun : tm.in_transition = true) (hcb : tm.cb = some c1) (hne : c1 ≠ c2) :
    c1 ∉ (start_transition tm cur next d2 (some c2)).2 ++
        (tm_run (start_transition tm cur next d2 (some c2)).1 evts).2 ∧
    ((start_transition tm cur next d2 (some c2)).2 ++
        (tm_run (start_transition tm cur next d2 (some c2)).1 evts).2).count c2 ≤ 1 := by
  have hcb2 : (start_transition tm cur next d2 (some c2)).1.cb = some c2 := by
    unfold start_transition
    split_ifs <;> rfl
  constructor
  · intro hmem
    rw [List.mem_append] at hmem
    rcases hmem with h | h
    · unfold start_transition at h
      split_ifs at h <;> simp at h
      exact hne h
    · exact hne (tm_run_mem evts _ c2 hcb2 c1 h)
  · rw [List.count_append]
    by_cases hd : d2 ≤ 0
    · have hout : (start_transition tm cur next d2 (some c2)).2 = [c2] := by
        unfold start_transition
        simp [hd]
      have hstop : (start_transition tm cur next d2 (some c2)).1.group.running = false := by
        unfold start_transition
        simp [hd, hrun]
      rw [hout, tm_run_stopped evts _ hstop]
      simp
    · have hout : (start_transition tm cur next d2 (some c2)).2 = [] := by
        unfold start_transition
        simp [hd]
      rw [hout]
      have := List.count_le_length c2 (tm_run (start_transition tm cur next d2 (some c2)).1 evts).2
      have hlen := tm_run_len evts (start_transition tm cur next d2 (some c2)).1
      simp only [List.count_nil, Nat.zero_add]
      omega

/-- Witness for C2: from the running manager with callback 1, starting a
second 100ms transition with callback 2 and letting the animation finish
invokes only callback 2, once. -/
theorem C2_second_start_sole_callback_witness :
    1 ∉ (start_transition tmMid none none 100 (some 2)).2 ++
        (tm_run (start_transition tmMid none none 100 (some 2)).1 [TmEvent.finishTick]).2 ∧
    ((start_transition tmMid none none 100 (some 2)).2 ++
        (tm_run (start_transition tmMid none none 100 (some 2)).1 [TmEvent.finishTick]).2).count 2 ≤ 1 :=
  C2_second_start_sole_callback tmMid none none 100 1 2 [TmEvent.finishTick] rfl rfl (by decide)

/-- C3 counterexample: starting a transition with duration 0 from the idle
manager leaves the in-transition flag true, not false as the claim states:
the source sets the flag before the duration check and the early return
never clears it. -/
theorem C3_counterexample :
    ¬ ((start_transition tmIdle none none 0 (some 5)).1.in_transition = false) := by
  decide

/-- C3 amended: starting with duration at most 0 from an idle manager
invokes the callback synchronously before start returns and starts no
animation (the group is left not running), but the in-transition flag is
set to true before the duration check and remains true when start
returns. -/
theorem C3_zero_duration_amended
    (tm : TransitionManager) (cur next : Option Bool) (d : Int) (cb2 : Option Nat)
    (hd : d ≤ 0) (hidle : tm.in_transition = false) (hg : tm.group.running = false) :
    (start_transition tm cur next d cb2).2 = cb2.toList ∧
    (start_transition tm cur next d cb2).1.group.running = false ∧
    (start_transition tm cur next d cb2).1.in_transition = true := by
  unfold start_transition
  simp [hd, hidle, hg]

/-- Witness for C3's amended statement at duration 0 with callback 7. -/
theorem C3_zero_duration_amended_witness :
    (start_transition tmIdle none none 0 (some 7)).2 = [7] ∧
    (start_transition tmIdle none none 0 (some 7)).1.group.running = false ∧
    (start_transition tmIdle none none 0 (some 7)).1.in_transition = true :=
  C3_zero_duration_amended tmIdle none none 0 (some 7) (by decide) rfl rfl

/-- C4: over the progress updates 0.30, 0.46, 0.54, 0.90 of a single
transition, the mid-transition metadata callback fires twice (once per
update inside the 0.45-0.55 band), not exactly once per transition as the
claim and the source's own comment state. -/
theorem C4_metadata_fire_twice :
    metadata_fire_count tmMid [3/10, 46/100, 54/100, 9/10] = 2 := by
  norm_num [metadata_fire_count, update_mid_transition, tmMid, List.filter]

/-! ## Supporting lemmas: show_photo retry loop -/

theorem show_photo_eq (exPred : String → Bool) (files : List String)
    (idx budget : Nat) :
    show_photo exPred files idx budget =
      if files.isEmpty then (ShowOutcome.emptyState, [])
      else if exPred (files.getD idx "") then
        (ShowOutcome.displayed (files.getD idx ""), [files.getD idx ""])
      else
        match budget with
        | 0 => (ShowOutcome.emptyState, [files.getD idx ""])
        | b + 1 =>
            ((show_photo exPred files ((idx + 1) % files.length) b).1,
              files.getD idx "" :: (show_photo exPred files ((idx + 1) % files.length) b).2) := by
  cases budget <;> rfl

theorem show_photo_all_missing :
    ∀ (b : Nat) (exPred : String → Bool) (files : List String) (idx : Nat),
      files ≠ [] → idx < files.length →
      (∀ j, j < b + 1 →
        exPred (files.getD ((idx + j) % files.length) "") = false) →
      (show_photo exPred files idx b).1 = ShowOutcome.emptyState ∧
      (show_photo exPred files idx b).2.length = b + 1 := by
  intro b
  induction b with
  | zero =>
      intro exPred files idx hne hidx hmiss
      have hemp : files.isEmpty = false := by
        cases files with
        | nil => exact absurd rfl hne
        | cons x xs => rfl
      have h0 := hmiss 0 (by omega)
      rw [Nat.add_zero, Nat.mod_eq_of_lt hidx] at h0
      rw [show_photo_eq]
      simp only [hemp, Bool.false_eq_true, if_false, h0]
      simp
  | succ b ih =>
      intro exPred files idx hne hidx hmiss
      have hemp : files.isEmpty = false := by
        cases files with
        | nil => exact absurd rfl hne
        | cons x xs => rfl
      have hlen : 0 < files.length := List.length_pos.mpr hne
      have h0 := hmiss 0 (by omega)
      rw [Nat.add_zero, Nat.mod_eq_of_lt hidx] at h0
      have hrec := ih exPred files ((idx + 1) % files.length)
        hne (Nat.mod_lt _ hlen)
        (fun j hj => by
          have := hmiss (j + 1) (by omega)
          rw [Nat.mod_add_mod]
          rw [show idx + 1 + j = idx + (j + 1) by omega]
          exact this)
      rw [show_photo_eq]
      simp only [hemp, Bool.false_eq_true, if_false, h0]
      exact ⟨hrec.1, by simp [hrec.2]⟩

theorem show_photo_probe_bound :
    ∀ (b : Nat) (exPred : String → Bool) (files : List String) (idx : Nat),
      (show_photo exPred files idx b).2.length ≤ b + 1 := by
  intro b
  induction b with
  | zero =>
      intro exPred files idx
      rw [show_photo_eq]
      split_ifs <;> simp
  | succ b ih =>
      intro exPred files idx
      have := ih exPred files ((idx + 1) % files.length)
      rw [show_photo_eq]
      split_ifs <;> simp
      omega

/-! ## Claim theorems: consecutive-failure retry limit -/

/-- C5 counterexample: with photos a-f where only f exists, the controller
suffers exactly 5 consecutive missing-file failures (a through e) and then,
contrary to the claim, probes a 6th photo rather than surfacing the empty
state: the run ends displaying f after 6 probes. -/
theorem C5_counterexample :
    ¬ ((show_photo existsOnlyF ["a", "b", "c", "d", "e", "f"] 0 5).1 =
        ShowOutcome.emptyState) ∧
    (show_photo existsOnlyF ["a", "b", "c", "d", "e", "f"] 0 5).2.length = 6 := by
  decide

/-- C5 amended: the retry loop stops only once the error count exceeds 5,
i.e. after 6 consecutive per-photo failures: when the 6 photos from the
current position are all missing it surfaces the persistent empty state
after exactly 6 probes, and no call sequence probes more than 6 photos. -/
theorem C5_failure_limit_amended :
    (∀ (exPred : String → Bool) (files : List String) (idx : Nat),
      files ≠ [] → idx < files.length →
      (∀ j, j < 6 → exPred (files.getD ((idx + j) % files.length) "") = false) →
      (show_photo exPred files idx 5).1 = ShowOutcome.emptyState ∧
      (show_photo exPred files idx 5).2.length = 6) ∧
    (∀ (exPred : String → Bool) (files : List String) (idx : Nat),
      (show_photo exPred files idx 5).2.length ≤ 6) := by
  constructor
  · intro exPred files idx hne hidx hmiss
    exact show_photo_all_missing 5 exPred files idx hne hidx hmiss
  · intro exPred files idx
    exact show_photo_probe_bound 5 exPred files idx

/-- Witness for C5's amended statement: with no file existing, a three-photo
sequence is probed 6 times (wrapping) and the empty state is surfaced. -/
theorem C5_failure_limit_amended_witness :
    (show_photo existsNone ["a", "b", "c"] 0 5).1 = ShowOutcome.emptyState ∧
    (show_photo existsNone ["a", "b", "c"] 0 5).2.length = 6 :=
  (C5_failure_limit_amended).1 existsNone ["a", "b", "c"] 0 (by decide) (by decide)
    (by decide)

/-! ## Supporting lemmas: preparation cache -/

theorem dict_insert_fresh (c : Cache) (k : String) (v : Pixmap × Nat)
    (h : k ∉ c.map Prod.fst) : dict_insert c k v = c ++ [(k, v)] := by
  induction c with
  | nil => rfl
  | cons kv rest ih =>
      obtain ⟨kk, vv⟩ := kv
      simp only [List.map_cons, List.mem_cons, not_or] at h
      simp only [dict_insert, if_neg (fun he : kk = k => h.1 he.symm)]
      rw [ih h.2]
      rfl

theorem dict_lookup_not_mem (c : Cache) (q : String)
    (h : q ∉ c.map Prod.fst) : dict_lookup c q = none := by
  induction c with
  | nil => rfl
  | cons kv rest ih =>
      obtain ⟨kk, vv⟩ := kv
      simp only [List.map_cons, List.mem_cons, not_or] at h
      simp only [dict_lookup, if_neg (fun he : kk = q => h.1 he.symm)]
      exact ih h.2

theorem update_cache_fill :
    ∀ (ks : List String) (c : Cache) (f : String → Pixmap × Nat),
      (c.map Prod.fst ++ ks).Nodup → c.length + ks.length ≤ 10 →
      ks.foldl (fun acc k => update_cache acc k (f k)) c =
        c ++ ks.map (fun k => (k, f k)) := by
  intro ks
  induction ks with
  | nil =>
      intro c f _ _
      simp
  | cons k rest ih =>
      intro c f hnd hlen
      have hk : k ∉ c.map Prod.fst := by
        rw [List.nodup_append] at hnd
        intro hmem
        exact hnd.2.2 hmem (List.mem_cons_self k rest)
      have hstep : update_cache c k (f k) = c ++ [(k, f k)] := by
        unfold update_cache
        rw [dict_insert_fresh c k (f k) hk]
        rw [if_neg (by simp at hlen ⊢; omega)]
      rw [List.foldl_cons, hstep]
      rw [ih (c ++ [(k, f k)]) f
        (by simpa [List.append_assoc] using hnd)
        (by simp at hlen ⊢; omega)]
      simp

/-! ## Claim theorems: preparation cache -/

/-- C6: requesting the same (path, size, blur) key twice on an initially
empty cache decodes exactly once (the second request is a hit that reuses
the stored pixmap and metadata and leaves the cache unchanged); inserting
an 11th distinct key evicts the oldest key, which is then no longer
retrievable, leaving exactly 10 entries; and the cache never grows past 10
entries. -/
theorem C6_cache_per_key :
    (∀ (env : Env) (path : String) (ss : Nat × Nat) (blur meta : Bool),
      (prepare_single_photo env [] path ss blur meta).2.2 = 1 ∧
      (prepare_single_photo env (prepare_single_photo env [] path ss blur meta).2.1
          path ss blur meta).2.2 = 0 ∧
      (prepare_single_photo env (prepare_single_photo env [] path ss blur meta).2.1
          path ss blur meta).1.pixmap =
        (prepare_single_photo env [] path ss blur meta).1.pixmap ∧
      (prepare_single_photo env (prepare_single_photo env [] path ss blur meta).2.1
          path ss blur meta).1.exif =
        (prepare_single_photo env [] path ss blur meta).1.exif ∧
      (prepare_single_photo env (prepare_single_photo env [] path ss blur meta).2.1
          path ss blur meta).2.1 =
        (prepare_single_photo env [] path ss blur meta).2.1) ∧
    (∀ (k0 : String) (mid : List String) (klast : String) (f : String → Pixmap × Nat),
      ((k0 :: mid) ++ [klast]).Nodup → mid.length = 9 →
      dict_lookup
        (((k0 :: mid) ++ [klast]).foldl (fun acc k => update_cache acc k (f k)) []) k0 =
        none ∧
      (((k0 :: mid) ++ [klast]).foldl (fun acc k => update_cache acc k (f k)) []).length =
        10) ∧
    (∀ (c : Cache) (k : String) (v : Pixmap × Nat),
      c.length ≤ 10 → (update_cache c k v).length ≤ 10) := by
  refine ⟨?_, ?_, ?_⟩
  · intro env path ss blur meta
    simp [prepare_single_photo, update_cache, dict_insert, dict_lookup]
  · intro k0 mid klast f hnd hlen
    have hnodup10 : (k0 :: mid).Nodup := List.Nodup.of_append_left hnd
    have hfill : (k0 :: mid).foldl (fun acc k => update_cache acc k (f k)) [] =
        (k0 :: mid).map (fun k => (k, f k)) := by
      have h := update_cache_fill (k0 :: mid) [] f (by simpa using hnodup10)
        (by simp [hlen])
      simpa using h
    have hkeys : ((k0 :: mid).map (fun k => (k, f k))).map Prod.fst = k0 :: mid := by
      simp [Function.comp_def]
    have hfresh : klast ∉ ((k0 :: mid).map (fun k => (k, f k))).map Prod.fst := by
      rw [hkeys]
      rw [List.nodup_append] at hnd
      intro hmem
      exact hnd.2.2 hmem (List.mem_singleton.mpr rfl)
    have hmain :
        ((k0 :: mid) ++ [klast]).foldl (fun acc k => update_cache acc k (f k)) [] =
          mid.map (fun k => (k, f k)) ++ [(klast, f klast)] := by
      rw [List.foldl_append, hfill]
      show update_cache ((k0 :: mid).map (fun k => (k, f k))) klast (f klast) = _
      unfold update_cache
      rw [dict_insert_fresh _ _ _ hfresh]
      rw [if_pos (by simp [hlen])]
      simp [hlen]
    constructor
    · rw [hmain]
      apply dict_lookup_not_mem
      have hk0 : k0 ∉ mid ++ [klast] := (List.nodup_cons.mp (by simpa using hnd)).1
      simpa using hk0
    · rw [hmain]
      simp [hlen]
  · intro c k v hc
    unfold update_cache
    by_cases h : 10 < (dict_insert c k v).length
    · rw [if_pos h]
      simp only [List.length_drop]
      omega
    · rw [if_neg h]
      omega

/-- Witness for C6: a concrete double preparation of "p.jpg" decodes once
then hits, and folding the 11 distinct keys key0..key10 into the empty
cache evicts key0 and leaves 10 entries. -/
theorem C6_cache_per_key_witness :
    (prepare_single_photo envCache [] "p.jpg" (100, 50) true true).2.2 = 1 ∧
    (prepare_single_photo envCache
        (prepare_single_photo envCache [] "p.jpg" (100, 50) true true).2.1
        "p.jpg" (100, 50) true true).2.2 = 0 ∧
    dict_lookup
      ((("k0" :: ["k1", "k2", "k3", "k4", "k5", "k6", "k7", "k8", "k9"]) ++ ["kA"]).foldl
        (fun acc k => update_cache acc k (constVal k)) []) "k0" = none ∧
    ((("k0" :: ["k1", "k2", "k3", "k4", "k5", "k6", "k7", "k8", "k9"]) ++ ["kA"]).foldl
        (fun acc k => update_cache acc k (constVal k)) []).length = 10 := by
  have h1 := (C6_cache_per_key).1 envCache "p.jpg" (100, 50) true true
  have h2 := (C6_cache_per_key).2.1 "k0"
    ["k1", "k2", "k3", "k4", "k5", "k6", "k7", "k8", "k9"] "kA" constVal
    (by decide) (by decide)
  exact ⟨h1.1, h1.2.1, h2.1, h2.2⟩

/-! ## Supporting lemmas: Qt aspect-preserving fit -/

theorem qt_scaled_keep_aspect_le (w h tw th : Nat) (hw : 0 < w) (hh : 0 < h) :
    (qt_scaled_keep_aspect w h tw th).1 ≤ tw ∧
    (qt_scaled_keep_aspect w h tw th).2 ≤ th := by
  unfold qt_scaled_keep_aspect
  by_cases hc : th * w / h ≤ tw
  · simp [hc]
  · rw [if_neg hc]
    refine ⟨Nat.le_refl tw, ?_⟩
    have h1 : tw + 1 ≤ th * w / h := by omega
    have h2 : (tw + 1) * h ≤ th * w := (Nat.le_div_iff_mul_le hh).mp h1
    have h3 : tw * h ≤ th * w :=
      Nat.le_trans (Nat.mul_le_mul_right h (Nat.le_succ tw)) h2
    have h4 : tw * h / w ≤ th * w / w := Nat.div_le_div_right h3
    rw [Nat.mul_div_cancel th hw] at h4
    exact h4

/-! ## Claim theorems: pair preparation geometry -/

/-- C7 counterexample: on a 100x50 screen the pair pipeline scales each
photo with width bound (100/2) - 5 = 45, not (100/2) - 10 = 40: decoding a
45x50 photo yields a displayed bitmap of width 45, which does not fit
within the claimed 40-pixel bound. -/
theorem C7_counterexample :
    (prepare_photo_pair envPair [] "a.jpg" "b.jpg" (100, 50) true true).1.pixmap1.width =
      45 ∧
    ¬ ((prepare_photo_pair envPair [] "a.jpg" "b.jpg" (100, 50) true true).1.pixmap1.width ≤
        100 / 2 - 10) := by
  have hhs : half_screen_width 100 = 45 := by norm_num [half_screen_width]
  have hfl : ((45 : ℚ)).floor.toNat = 45 := rfl
  have hw :
      (prepare_photo_pair envPair [] "a.jpg" "b.jpg" (100, 50) true true).1.pixmap1.width =
        45 := by
    norm_num [prepare_photo_pair, hhs, hfl, envPair, cache_key, dict_lookup,
      qt_scaled_keep_aspect, update_cache, dict_insert, pyBoolStr]
  refine ⟨hw, ?_⟩
  rw [hw]
  decide

/-- C7 amended: in prepare_photo_pair each photo is decoded (and
blur-composited) against the half-width target ((screenW/2) - 5 truncated,
screenH), and each resulting bitmap is Qt-scaled with the same bounds, so
it fits within width (screenW/2) - 5 — not (screenW/2) - 10 — and the full
screen height, preserving aspect ratio per Qt integer fit semantics. -/
theorem C7_pair_half_width (env : Env) (p1 p2 : String) (ss : Nat × Nat)
    (blur meta : Bool)
    (hk : cache_key p1 ((half_screen_width ss.1).floor.toNat, ss.2) blur ≠
        cache_key p2 ((half_screen_width ss.1).floor.toNat, ss.2) blur)
    (h1w : 0 < (env.load_photo p1 ((half_screen_width ss.1).floor.toNat, ss.2) blur).1.width)
    (h1h : 0 < (env.load_photo p1 ((half_screen_width ss.1).floor.toNat, ss.2) blur).1.height)
    (h2w : 0 < (env.load_photo p2 ((half_screen_width ss.1).floor.toNat, ss.2) blur).1.width)
    (h2h : 0 < (env.load_photo p2 ((half_screen_width ss.1).floor.toNat, ss.2) blur).1.height) :
    (prepare_photo_pair env [] p1 p2 ss blur meta).1.pixmap1 =
      { width := (qt_scaled_keep_aspect
            (env.load_photo p1 ((half_screen_width ss.1).floor.toNat, ss.2) blur).1.width
            (env.load_photo p1 ((half_screen_width ss.1).floor.toNat, ss.2) blur).1.height
            (half_screen_width ss.1).floor.toNat ss.2).1,
        height := (qt_scaled_keep_aspect
            (env.load_photo p1 ((half_screen_width ss.1).floor.toNat, ss.2) blur).1.width
            (env.load_photo p1 ((half_screen_width ss.1).floor.toNat, ss.2) blur).1.height
            (half_screen_width ss.1).floor.toNat ss.2).2,
        tag := (env.load_photo p1 ((half_screen_width ss.1).floor.toNat, ss.2) blur).1.tag } ∧
    (prepare_photo_pair env [] p1 p2 ss blur meta).1.pixmap2 =
      { width := (qt_scaled_keep_aspect
            (env.load_photo p2 ((half_screen_width ss.1).floor.toNat, ss.2) blur).1.width
            (env.load_photo p2 ((half_screen_width ss.1).floor.toNat, ss.2) blur).1.height
            (half_screen_width ss.1).floor.toNat ss.2).1,
        height := (qt_scaled_keep_aspect
            (env.load_photo p2 ((half_screen_width ss.1).floor.toNat, ss.2) blur).1.width
            (env.load_photo p2 ((half_screen_width ss.1).floor.toNat, ss.2) blur).1.height
            (half_screen_width ss.1).floor.toNat ss.2).2,
        tag := (env.load_photo p2 ((half_screen_width ss.1).floor.toNat, ss.2) blur).1.tag } ∧
    (prepare_photo_pair env [] p1 p2 ss blur meta).1.pixmap1.width ≤
      (half_screen_width ss.1).floor.toNat ∧
    (prepare_photo_pair env [] p1 p2 ss blur meta).1.pixmap1.height ≤ ss.2 ∧
    (prepare_photo_pair env [] p1 p2 ss blur meta).1.pixmap2.width ≤
      (half_screen_width ss.1).floor.toNat ∧
    (prepare_photo_pair env [] p1 p2 ss blur meta).1.pixmap2.height ≤ ss.2 ∧
    (prepare_photo_pair env [] p1 p2 ss blur meta).1.exif1 =
      (env.load_photo p1 ((half_screen_width ss.1).floor.toNat, ss.2) blur).2 ∧
    (prepare_photo_pair env [] p1 p2 ss blur meta).1.exif2 =
      (env.load_photo p2 ((half_screen_width ss.1).floor.toNat, ss.2) blur).2 ∧
    (prepare_photo_pair env [] p1 p2 ss blur meta).2.2 = 2 := by
  have hle1 := qt_scaled_keep_aspect_le
    (env.load_photo p1 ((half_screen_width ss.1).floor.toNat, ss.2) blur).1.width
    (env.load_photo p1 ((half_screen_width ss.1).floor.toNat, ss.2) blur).1.height
    ((half_screen_width ss.1).floor.toNat) ss.2 h1w h1h
  have hle2 := qt_scaled_keep_aspect_le
    (env.load_photo p2 ((half_screen_width ss.1).floor.toNat, ss.2) blur).1.width
    (env.load_photo p2 ((half_screen_width ss.1).floor.toNat, ss.2) blur).1.height
    ((half_screen_width ss.1).floor.toNat) ss.2 h2w h2h
  simp only [prepare_photo_pair, dict_lookup, update_cache, dict_insert,
    List.length_cons, List.length_nil, hk, if_false]
  norm_num
  exact ⟨hle1.1, hle1.2, hle2.1, hle2.2⟩

/-- Witness for C7's amended statement on a 100x50 screen with two distinct
photos each decoding to 45x50. -/
theorem C7_pair_half_width_witness :
    (prepare_photo_pair envPair [] "a.jpg" "b.jpg" (100, 50) true true).1.pixmap1.width ≤
      (half_screen_width 100).floor.toNat ∧
    (prepare_photo_pair envPair [] "a.jpg" "b.jpg" (100, 50) true true).1.pixmap1.height ≤
      50 ∧
    (prepare_photo_pair envPair [] "a.jpg" "b.jpg" (100, 50) true true).2.2 = 2 := by
  have hkey : cache_key "a.jpg" ((half_screen_width (100, 50).1).floor.toNat, (100, 50).2)
        true ≠
      cache_key "b.jpg" ((half_screen_width (100, 50).1).floor.toNat, (100, 50).2) true := by
    have hhs : half_screen_width 100 = 45 := by norm_num [half_screen_width]
    simp only [hhs]
    decide
  have h := C7_pair_half_width envPair "a.jpg" "b.jpg" (100, 50) true true hkey
    (by decide) (by decide) (by decide) (by decide)
  exact ⟨h.2.2.1, h.2.2.2.1, h.2.2.2.2.2.2.2.2⟩

/-! ## Claim theorems: blurred background -/

/-- C8: if the aspect-preserving fitted size is not strictly smaller than
the target in either dimension, create_blurred_background returns the image
unchanged; if it is strictly smaller in some dimension (letterboxing), the
result has exactly the target's width and height. -/
theorem C8_blur_dimensions (image : PImage) (sw sh : Nat)
    (hw : 0 < image.width) (hh : 0 < image.height) :
    (¬ ((get_scaled_size image.width image.height sw sh).1 < sw ∨
        (get_scaled_size image.width image.height sw sh).2 < sh) →
      create_blurred_background image sw sh = image) ∧
    (((get_scaled_size image.width image.height sw sh).1 < sw ∨
      (get_scaled_size image.width image.height sw sh).2 < sh) →
      (create_blurred_background image sw sh).width = sw ∧
      (create_blurred_background image sw sh).height = sh) := by
  constructor
  · intro hfit
    simp only [create_blurred_background]
    rw [if_neg hfit]
  · intro hletter
    simp only [create_blurred_background]
    rw [if_pos hletter]
    constructor
    · simp only [PImage.width]
      omega
    · simp only [PImage.height]
      omega

/-- Witness for C8: a 100x50 image fitted to a 100x50 target is returned
unchanged; a 30x60 image letterboxed into 100x50 produces exactly a 100x50
result. -/
theorem C8_blur_dimensions_witness :
    create_blurred_background (PImage.base 100 50 1) 100 50 = PImage.base 100 50 1 ∧
    (create_blurred_background (PImage.base 30 60 2) 100 50).width = 100 ∧
    (create_blurred_background (PImage.base 30 60 2) 100 50).height = 50 := by
  have e1 : get_scaled_size 100 50 100 50 = (100, 50) := by
    unfold get_scaled_size
    norm_num
    exact ⟨rfl, rfl⟩
  have e2 : get_scaled_size 30 60 100 50 = (25, 50) := by
    unfold get_scaled_size
    norm_num
    exact ⟨rfl, rfl⟩
  have hA := (C8_blur_dimensions (PImage.base 100 50 1) 100 50 (by decide) (by decide)).1
    (by rw [show (PImage.base 100 50 1).width = 100 from rfl,
          show (PImage.base 100 50 1).height = 50 from rfl, e1]; decide)
  have hB := (C8_blur_dimensions (PImage.base 30 60 2) 100 50 (by decide) (by decide)).2
    (by rw [show (PImage.base 30 60 2).width = 30 from rfl,
          show (PImage.base 30 60 2).height = 60 from rfl, e2]; decide)
  exact ⟨hA, hB.1, hB.2⟩

end VeloFrame
